import Mathlib

/-!
Verification of the dolianova water-system controller (`src/dolianova.py`).

Modelling conventions (shallow embedding):
* `datetime` and `timedelta` values are integers counting microseconds
  (Python datetimes have microsecond resolution), type `ℤ`.
* Python floats are modelled as exact rationals `ℚ`; division is the
  total division of `ℚ` (Python raises on a zero divisor, so theorems
  about quotients carry positivity hypotheses where that matters).
* JSON documents are modelled by an abstract syntax tree `Json`; the
  text layer (`json5.dumps` / `json5.loads`) is an external library and
  is modelled as the identity on this tree.  `datetime.isoformat` /
  `datetime.fromisoformat` are modelled by an injective decimal
  rendering of the microsecond count with a proved round-trip.
* A Python method raising an exception is modelled by `Option`
  (deserializers) or by an explicit error sum (`Controller.load`).
-/

namespace Dolianova

/-- Tri-level tank reading, mirroring the `TankLevel` StrEnum. -/
inductive TankLevel where
  | empty
  | medium
  | full
deriving DecidableEq, Repr, Fintype

/-- The five state classes of the machine, as a sum type. -/
inductive StateName where
  | FillWell
  | FillLargeTank
  | SettleLargeTank
  | FillSmallTank
  | SmallTankInUse
deriving DecidableEq, Repr, Fintype

/-- Pin identifiers: `type PinID = int | str`. -/
inductive PinID where
  | int : ℤ → PinID
  | str : String → PinID
deriving DecidableEq, Repr

/-! ### Decimal codec modelling `datetime.isoformat` / `fromisoformat`

The real functions render a microsecond-resolution datetime to an
ISO-8601 string and parse it back; all the claims need is that the
rendering is injective and round-trips, so it is modelled by the
decimal rendering of the microsecond count. -/

/-- The character of a single decimal digit. -/
def digitChar (d : ℕ) : Char := Char.ofNat (48 + d)

/-- Inverse of `digitChar` on decimal digit characters. -/
def charToDigit (c : Char) : Option ℕ :=
  if 48 ≤ c.toNat ∧ c.toNat ≤ 57 then some (c.toNat - 48) else none

/-- Big-endian character rendering of a natural number. -/
def encodeNat (n : ℕ) : List Char :=
  if n = 0 then ['0'] else ((Nat.digits 10 n).map digitChar).reverse

/-- Parse a big-endian list of digit characters into its digit list. -/
def decodeDigits : List Char → Option (List ℕ)
  | [] => some []
  | c :: cs =>
    match charToDigit c, decodeDigits cs with
    | some d, some ds => some (d :: ds)
    | _, _ => none

/-- Parse a big-endian list of digit characters into a natural number. -/
def decodeNat (cs : List Char) : Option ℕ :=
  (decodeDigits cs).map fun ds => Nat.ofDigits 10 ds.reverse

/-- Model of `datetime.isoformat` on a microsecond count. -/
def isoformat (t : ℤ) : String :=
  ⟨if t < 0 then '-' :: encodeNat t.natAbs else encodeNat t.natAbs⟩

/-- Model of `datetime.fromisoformat`; `none` models the raised
`ValueError` on a non-parsable string. -/
def fromisoformat (s : String) : Option ℤ :=
  match s.data with
  | [] => none
  | c :: cs =>
    if c = '-' then (decodeNat cs).map fun n => -(n : ℤ)
    else (decodeNat (c :: cs)).map fun n => (n : ℤ)

theorem charToDigit_digitChar {d : ℕ} (h : d < 10) :
    charToDigit (digitChar d) = some d := by
  interval_cases d <;> decide

theorem decodeDigits_map (ds : List ℕ) (h : ∀ d ∈ ds, d < 10) :
    decodeDigits (ds.map digitChar) = some ds := by
  induction ds with
  | nil => rfl
  | cons d ds ih =>
    have hd : d < 10 := h d (List.mem_cons_self d ds)
    have hds : ∀ x ∈ ds, x < 10 := fun x hx => h x (List.mem_cons_of_mem d hx)
    simp [decodeDigits, charToDigit_digitChar hd, ih hds]

theorem decodeNat_encodeNat (n : ℕ) : decodeNat (encodeNat n) = some n := by
  by_cases h0 : n = 0
  · subst h0; decide
  · have hlt : ∀ d ∈ (Nat.digits 10 n).reverse, d < 10 := by
      intro d hd
      exact Nat.digits_lt_base (by norm_num) (List.mem_reverse.mp hd)
    have : ((Nat.digits 10 n).map digitChar).reverse
        = ((Nat.digits 10 n).reverse).map digitChar := by
      simp [List.map_reverse]
    simp only [decodeNat, encodeNat, h0, if_false, this,
      decodeDigits_map _ hlt, Option.map_some']
    simp [Nat.ofDigits_digits]

theorem encodeNat_ne_nil (n : ℕ) : encodeNat n ≠ [] := by
  by_cases h0 : n = 0
  · simp [encodeNat, h0]
  · simp [encodeNat, h0, Nat.digits_ne_nil_iff_ne_zero.mpr h0]

theorem encodeNat_no_minus (n : ℕ) : ∀ c ∈ encodeNat n, c ≠ '-' := by
  intro c hc
  by_cases h0 : n = 0
  · simp [encodeNat, h0] at hc
    subst hc; decide
  · simp only [encodeNat, h0, if_false, List.mem_reverse, List.mem_map] at hc
    obtain ⟨d, hd, rfl⟩ := hc
    have : d < 10 := Nat.digits_lt_base (by norm_num) hd
    interval_cases d <;> decide

theorem fromisoformat_isoformat (t : ℤ) : fromisoformat (isoformat t) = some t := by
  by_cases ht : t < 0
  · have h1 : isoformat t = ⟨'-' :: encodeNat t.natAbs⟩ := by
      simp [isoformat, ht]
    rw [h1]
    show (match '-' :: encodeNat t.natAbs with
      | [] => none
      | c :: cs =>
        if c = '-' then (decodeNat cs).map fun n => -(n : ℤ)
        else (decodeNat (c :: cs)).map fun n => (n : ℤ)) = some t
    simp only [if_pos rfl, decodeNat_encodeNat, Option.map_some']
    show some (-(t.natAbs : ℤ)) = some t
    congr 1
    omega
  · have h1 : isoformat t = ⟨encodeNat t.natAbs⟩ := by
      simp [isoformat, ht]
    rw [h1]
    rcases he : encodeNat t.natAbs with _ | ⟨c, cs⟩
    · exact absurd he (encodeNat_ne_nil t.natAbs)
    · have hc : c ≠ '-' := encodeNat_no_minus t.natAbs c (he ▸ List.mem_cons_self c cs)
      show (match c :: cs with
        | [] => none
        | c :: cs =>
          if c = '-' then (decodeNat cs).map fun n => -(n : ℤ)
          else (decodeNat (c :: cs)).map fun n => (n : ℤ)) = some t
      have hrt := decodeNat_encodeNat t.natAbs
      rw [he] at hrt
      simp only [if_neg hc, hrt, Option.map_some']
      show some ((t.natAbs : ℤ)) = some t
      congr 1
      omega

/-! ### JSON documents

Model of a parsed `json5` document. -/

/-- Abstract syntax of a parsed JSON document. -/
inductive Json where
  | str : String → Json
  | int : ℤ → Json
  | num : ℚ → Json
  | bool : Bool → Json
  | obj : List (String × Json) → Json

/-- Model of `data[k]` on a parsed document: `none` models the raised
`KeyError` / `TypeError`. -/
def Json.get (j : Json) (k : String) : Option Json :=
  match j with
  | .obj l => l.lookup k
  | _ => none

/-! ### Well estimator (`class Well`) -/

/-- State of the well estimator.  `_level` is the fractional level in
`[0, 1]`; times are microsecond counts. -/
structure Well where
  _level : ℚ
  fill_period : ℤ
  empty_period : ℤ
  last_update : ℤ
  pump_active : Bool
deriving DecidableEq, Repr

/-- Clamp to `[0, 1]`, mirroring `max(0.0, min(1.0, x))`. -/
def clamp01 (q : ℚ) : ℚ := max 0 (min 1 q)

/-- Truncation toward zero, mirroring Python `int()` on a float. -/
def ratTrunc (q : ℚ) : ℤ := if 0 ≤ q then ⌊q⌋ else ⌈q⌉

/-- Mirror of `Well._update_level` evaluated at time `now`. -/
def Well.update_level (w : Well) (now : ℤ) : Well :=
  let delta : ℚ := ((now - w.last_update : ℤ) : ℚ)
  let l : ℚ :=
    if w.pump_active then w._level - delta / ((w.empty_period : ℤ) : ℚ)
    else w._level + delta / ((w.fill_period : ℤ) : ℚ)
  { w with _level := clamp01 l, last_update := now }

/-- Mirror of the `Well.level` property read at time `now` (the
returned integer percent; the accompanying mutation only refreshes
`last_update`, see `Well.levelAt_update_level`). -/
def Well.levelAt (w : Well) (now : ℤ) : ℤ :=
  ratTrunc (100 * (w.update_level now)._level)

/-- Mirror of `Well.__init__` evaluated at time `now`; `none` models
the `assert 0 <= level <= 100` failure. -/
def Well.init (fill_period empty_period : ℤ) (level : ℤ)
    (last_update : ℤ) (now : ℤ) : Option Well :=
  if 0 ≤ level ∧ level ≤ 100 then
    some (Well.update_level
      { _level := (level : ℚ) / 100, fill_period := fill_period,
        empty_period := empty_period, last_update := last_update,
        pump_active := false } now)
  else none

/-- Mirror of `Well.pump_activated` (listener callback) at time `now`. -/
def Well.pump_activated (w : Well) (now : ℤ) : Well :=
  if w.pump_active then w
  else { w.update_level now with pump_active := true }

/-- Mirror of `Well.pump_deactivated` (listener callback) at time `now`. -/
def Well.pump_deactivated (w : Well) (now : ℤ) : Well :=
  if !w.pump_active then w
  else { w.update_level now with pump_active := false }

theorem clamp01_mem (q : ℚ) : 0 ≤ clamp01 q ∧ clamp01 q ≤ 1 := by
  constructor
  · exact le_max_left 0 _
  · simp only [clamp01, max_le_iff]
    exact ⟨by norm_num, min_le_left 1 q⟩

theorem clamp01_idem (q : ℚ) : clamp01 (clamp01 q) = clamp01 q := by
  rcases clamp01_mem q with ⟨h0, h1⟩
  simp [clamp01, max_eq_right, min_eq_right, h0, h1]

/-- Updating twice at the same instant is the same as updating once:
the second update sees a zero elapsed time and an already clamped
level. -/
theorem Well.update_level_idem (w : Well) (now : ℤ) :
    (w.update_level now).update_level now = w.update_level now := by
  rcases clamp01_mem (if w.pump_active
      then w._level - ((now - w.last_update : ℤ) : ℚ) / ((w.empty_period : ℤ) : ℚ)
      else w._level + ((now - w.last_update : ℤ) : ℚ) / ((w.fill_period : ℤ) : ℚ))
    with ⟨h0, h1⟩
  simp only [Well.update_level, sub_self, Int.cast_zero, zero_div, sub_zero, add_zero]
  rcases hp : w.pump_active <;>
    simp_all [clamp01, max_eq_right, min_eq_right, h0, h1]

/-- Reading the level twice at the same instant yields the same value. -/
theorem Well.levelAt_update_level (w : Well) (now : ℤ) :
    (w.update_level now).levelAt now = w.levelAt now := by
  simp [Well.levelAt, Well.update_level_idem]

/-! ### Pump with its registered listener (`class Pump`)

In the running system the only listener registration is
`Context.__post_init__` adding the `Well` to the well-to-large-tank
pump, so a pump is modelled together with its single registered
listener.  A `PumpEvent` records one invocation of a listener callback
(`listener.pump_activated()` / `listener.pump_deactivated()`). -/

/-- One listener-callback invocation performed by the pump. -/
inductive PumpEvent where
  | activated
  | deactivated
deriving DecidableEq, Repr

/-- A pump (`_active` flag) together with the well registered as its
listener. -/
structure PumpW where
  active : Bool
  well : Well
deriving DecidableEq, Repr

/-- Mirror of `Pump.activate`: sets the flag, then invokes
`pump_activated` on every listener (here: the well), unconditionally.
Returns the new state and the list of listener callbacks invoked. -/
def PumpW.activate (p : PumpW) (now : ℤ) : PumpW × List PumpEvent :=
  ({ active := true, well := p.well.pump_activated now }, [.activated])

/-- Mirror of `Pump.deactivate`. -/
def PumpW.deactivate (p : PumpW) (now : ℤ) : PumpW × List PumpEvent :=
  ({ active := false, well := p.well.pump_deactivated now }, [.deactivated])

/-! ### Snapshots (`class Measures`) -/

/-- Mirror of the `Measures` dataclass; `time` has `compare=False`. -/
structure Measures where
  time : ℤ
  well_level : ℤ
  large_tank_level : TankLevel
  small_tank_level : TankLevel
  well_to_large_tank_pump_active : Bool
  lower_to_small_tank_pump_active : Bool
  current_state : StateName
  state_activated_at : ℤ
deriving DecidableEq, Repr

/-- Dataclass equality of `Measures`: every field except `time`
(`time` is declared with `compare=False`). -/
def Measures.pyEq (a b : Measures) : Bool :=
  a.well_level = b.well_level ∧
  a.large_tank_level = b.large_tank_level ∧
  a.small_tank_level = b.small_tank_level ∧
  a.well_to_large_tank_pump_active = b.well_to_large_tank_pump_active ∧
  a.lower_to_small_tank_pump_active = b.lower_to_small_tank_pump_active ∧
  a.current_state = b.current_state ∧
  a.state_activated_at = b.state_activated_at

/-- Mirror of `Measures.initial()` at time `now` (both `datetime.now()`
calls read the same frozen clock). -/
def Measures.initial (now : ℤ) : Measures :=
  { time := now, well_level := 0, large_tank_level := .empty,
    small_tank_level := .empty, well_to_large_tank_pump_active := false,
    lower_to_small_tank_pump_active := false, current_state := .FillWell,
    state_activated_at := now }

/-- The `.value` string of a `TankLevel` (StrEnum payload). -/
def TankLevel.value : TankLevel → String
  | .empty => "empty"
  | .medium => "medium"
  | .full => "full"

/-- Mirror of the `TankLevel(...)` constructor call on a string;
`none` models the raised `ValueError`. -/
def tankLevelOfString (s : String) : Option TankLevel :=
  if s = "empty" then some .empty
  else if s = "medium" then some .medium
  else if s = "full" then some .full
  else none

/-- The `__name__` of a state class. -/
def StateName.pyName : StateName → String
  | .FillWell => "FillWell"
  | .FillLargeTank => "FillLargeTank"
  | .SettleLargeTank => "SettleLargeTank"
  | .FillSmallTank => "FillSmallTank"
  | .SmallTankInUse => "SmallTankInUse"

/-- Mirror of the `globals()[name]` lookup in `Measures.deserialize`,
restricted to the five state classes (any other name yields an
invalid, never-used snapshot or a `KeyError` in Python; both are
modelled as a failure). -/
def stateOfName (s : String) : Option StateName :=
  if s = "FillWell" then some .FillWell
  else if s = "FillLargeTank" then some .FillLargeTank
  else if s = "SettleLargeTank" then some .SettleLargeTank
  else if s = "FillSmallTank" then some .FillSmallTank
  else if s = "SmallTankInUse" then some .SmallTankInUse
  else none

/-- Mirror of `Measures.serialize` (to the parsed-document tree). -/
def Measures.serialize (m : Measures) : Json :=
  .obj [("time", .str (isoformat m.time)),
        ("well_level", .int m.well_level),
        ("large_tank_level", .str m.large_tank_level.value),
        ("small_tank_level", .str m.small_tank_level.value),
        ("well_to_large_tank_pump_active", .bool m.well_to_large_tank_pump_active),
        ("lower_to_small_tank_pump_active", .bool m.lower_to_small_tank_pump_active),
        ("current_state", .str m.current_state.pyName),
        ("state_activated_at", .str (isoformat m.state_activated_at))]

/-- Mirror of `Measures.deserialize`; `none` models any raised
exception (missing key, `isinstance` assertion failure, or a failing
conversion). -/
def Measures.deserialize (j : Json) : Option Measures := do
  let .str timeS ← j.get "time" | none
  let .int wl ← j.get "well_level" | none
  let .str largeS ← j.get "large_tank_level" | none
  let .str smallS ← j.get "small_tank_level" | none
  let .bool wlp ← j.get "well_to_large_tank_pump_active" | none
  let .bool lsp ← j.get "lower_to_small_tank_pump_active" | none
  let .str stateS ← j.get "current_state" | none
  let .str activS ← j.get "state_activated_at" | none
  let time ← fromisoformat timeS
  let large ← tankLevelOfString largeS
  let small ← tankLevelOfString smallS
  let state ← stateOfName stateS
  let activ ← fromisoformat activS
  pure { time := time, well_level := wl, large_tank_level := large,
         small_tank_level := small, well_to_large_tank_pump_active := wlp,
         lower_to_small_tank_pump_active := lsp, current_state := state,
         state_activated_at := activ }

theorem tankLevelOfString_value (L : TankLevel) :
    tankLevelOfString L.value = some L := by
  cases L <;> rfl

theorem stateOfName_pyName (s : StateName) : stateOfName s.pyName = some s := by
  cases s <;> rfl

/-- Serialization of a snapshot is a lossless round-trip (on the
parsed-document tree), every field included. -/
theorem Measures.roundtrip_measures (m : Measures) :
    Measures.deserialize (Measures.serialize m) = some m := by
  simp [Measures.serialize, Measures.deserialize, Json.get, List.lookup,
    fromisoformat_isoformat, tankLevelOfString_value, stateOfName_pyName]

/-- Mirror of `Measures.copy` (`deserialize(serialize(self))`); the
fallback arm is unreachable by `Measures.roundtrip_measures`. -/
def Measures.copy (m : Measures) : Measures :=
  match Measures.deserialize (Measures.serialize m) with
  | some m' => m'
  | none => m

theorem Measures.copy_eq (m : Measures) : Measures.copy m = m := by
  simp [Measures.copy, Measures.roundtrip_measures]

/-! ### Settings (`class Settings`) -/

/-- Mirror of the `Settings` dataclass; the three durations are
`timedelta` values in microseconds. -/
structure Settings where
  fill_period : ℤ
  empty_period : ℤ
  settle_time : ℤ
  large_tank_low_floater_pin : PinID
  large_tank_high_floater_pin : PinID
  small_tank_low_floater_pin : PinID
  small_tank_high_floater_pin : PinID
  well_to_large_tank_pump_pin : PinID
  lower_to_small_tank_pump_pin : PinID
deriving DecidableEq, Repr

/-- Mirror of `is_number` followed by reading the numeric value (JSON
integers and floats both satisfy `is_number`). -/
def Json.asNumber : Json → Option ℚ
  | .int i => some ((i : ℤ) : ℚ)
  | .num q => some q
  | _ => none

/-- Mirror of `is_pin_id` followed by reading the raw value. -/
def Json.asPinID : Json → Option PinID
  | .int i => some (.int i)
  | .str s => some (.str s)
  | _ => none

/-- JSON value of a pin identifier (stored raw by `Settings.serialize`). -/
def PinID.toJson : PinID → Json
  | .int i => .int i
  | .str s => .str s

/-- Mirror of `timedelta(seconds=x)`: seconds to a whole number of
microseconds (Python rounds the fractional microsecond). -/
def microsOfSeconds (q : ℚ) : ℤ := round (q * 1000000)

/-- Mirror of `timedelta.total_seconds()`. -/
def secondsOfMicros (t : ℤ) : ℚ := (t : ℚ) / 1000000

/-- Mirror of `Settings.serialize` (to the parsed-document tree). -/
def Settings.serialize (s : Settings) : Json :=
  .obj [("fill_period", .num (secondsOfMicros s.fill_period)),
        ("empty_period", .num (secondsOfMicros s.empty_period)),
        ("settle_time", .num (secondsOfMicros s.settle_time)),
        ("large_tank_low_floater_pin", s.large_tank_low_floater_pin.toJson),
        ("large_tank_high_floater_pin", s.large_tank_high_floater_pin.toJson),
        ("small_tank_low_floater_pin", s.small_tank_low_floater_pin.toJson),
        ("small_tank_high_floater_pin", s.small_tank_high_floater_pin.toJson),
        ("well_to_large_tank_pump_pin", s.well_to_large_tank_pump_pin.toJson),
        ("lower_to_small_tank_pump_pin", s.lower_to_small_tank_pump_pin.toJson)]

/-- Mirror of `Settings.deserialize`; `none` models any raised
exception (missing key or failing `assert`). -/
def Settings.deserialize (j : Json) : Option Settings :=
  ((j.get "fill_period").bind Json.asNumber).bind fun fp =>
  ((j.get "empty_period").bind Json.asNumber).bind fun ep =>
  ((j.get "settle_time").bind Json.asNumber).bind fun st =>
  ((j.get "large_tank_low_floater_pin").bind Json.asPinID).bind fun p1 =>
  ((j.get "large_tank_high_floater_pin").bind Json.asPinID).bind fun p2 =>
  ((j.get "small_tank_low_floater_pin").bind Json.asPinID).bind fun p3 =>
  ((j.get "small_tank_high_floater_pin").bind Json.asPinID).bind fun p4 =>
  ((j.get "well_to_large_tank_pump_pin").bind Json.asPinID).bind fun p5 =>
  ((j.get "lower_to_small_tank_pump_pin").bind Json.asPinID).bind fun p6 =>
  some { fill_period := microsOfSeconds fp, empty_period := microsOfSeconds ep,
         settle_time := microsOfSeconds st,
         large_tank_low_floater_pin := p1, large_tank_high_floater_pin := p2,
         small_tank_low_floater_pin := p3, small_tank_high_floater_pin := p4,
         well_to_large_tank_pump_pin := p5, lower_to_small_tank_pump_pin := p6 }

theorem microsOfSeconds_secondsOfMicros (t : ℤ) :
    microsOfSeconds (secondsOfMicros t) = t := by
  have h : secondsOfMicros t * 1000000 = (t : ℚ) := by
    simp [secondsOfMicros]
  simp [microsOfSeconds, h, round_intCast]

theorem Json.asPinID_toJson (p : PinID) : (PinID.toJson p).asPinID = some p := by
  cases p <;> rfl

/-- Serialization of settings is a lossless round-trip (on the
parsed-document tree). -/
theorem Settings.roundtrip_settings (s : Settings) :
    Settings.deserialize (Settings.serialize s) = some s := by
  simp [Settings.serialize, Settings.deserialize, Json.get, List.lookup,
    Json.asNumber, Json.asPinID_toJson, microsOfSeconds_secondsOfMicros]

/-! ### History (`class History`)

A Python 3.7+ `dict` is an insertion-ordered mapping in which
assignment to an existing key replaces the value in place (keeping its
position) and assignment to a new key appends; it is modelled by an
association list with exactly that update operation. -/

/-- Mirror of `self.measures[k] = v` on an insertion-ordered `dict`. -/
def dictInsert : List (ℤ × Measures) → ℤ → Measures → List (ℤ × Measures)
  | [], k, v => [(k, v)]
  | (k', v') :: rest, k, v =>
    if k' = k then (k', v) :: rest else (k', v') :: dictInsert rest k v

/-- Mirror of the `History` dataclass. -/
structure History where
  measures : List (ℤ × Measures)
deriving DecidableEq, Repr

/-- Mirror of `History.last` (`next(reversed(self.measures.values()))`,
`None` on an empty dict). -/
def History.lastM (h : History) : Option Measures :=
  h.measures.getLast?.map Prod.snd

/-- Mirror of `History.add`: no-op when the new measures equal (under
dataclass equality, which ignores `time`) the most recently stored
value of a non-empty history; otherwise store a copy keyed by
`measures.time`. -/
def History.add (h : History) (m : Measures) : History :=
  if h.measures.length ≠ 0 ∧
      (match h.lastM with
       | some lm => Measures.pyEq lm m
       | none => false) = true then h
  else ⟨dictInsert h.measures m.time (Measures.copy m)⟩

/-- Mirror of `History.serialize` (to the parsed-document tree; the
real file stores each snapshot nested as a JSON-encoded string, which
the tree models as a directly nested document). -/
def History.serialize (h : History) : Json :=
  .obj (h.measures.map fun tm => (isoformat tm.1, Measures.serialize tm.2))

/-- Entry-wise parser used by `History.deserialize`. -/
def decodeHistEntries : List (String × Json) → Option (List (ℤ × Measures))
  | [] => some []
  | (k, v) :: rest => do
    let t ← fromisoformat k
    let m ← Measures.deserialize v
    let r ← decodeHistEntries rest
    pure ((t, m) :: r)

/-- Mirror of `History.deserialize`; `none` models any raised
exception. -/
def History.deserialize (j : Json) : Option History :=
  match j with
  | .obj entries => (decodeHistEntries entries).map History.mk
  | _ => none

/-! ### Context and the state machine (`class Context`, `class State`)

The two `GPIOTank` sensors are hardware inputs; within one tick they
are fixed readings, modelled as `TankLevel` fields of the context.
The two pumps are the context's `pumpWL` / `pumpLS` flags; the well is
registered as the listener of the well-to-large-tank pump
(`Context.__post_init__`), so activating or deactivating that pump
also delivers the listener callback to the well. -/

/-- Mirror of the `Context` dataclass at one tick (sensor readings
fixed). -/
structure Context where
  well : Well
  large : TankLevel
  small : TankLevel
  pumpWL : Bool
  pumpLS : Bool
  settle_time : ℤ
  current_state : StateName
  state_activated_at : ℤ
deriving DecidableEq, Repr

/-- Mirror of the `Context.same_state_since` property at time `now`. -/
def Context.same_state_since (c : Context) (now : ℤ) : ℤ :=
  now - c.state_activated_at

/-- Mirror of the five `State.check` static methods, dispatched on the
state name.  `now` is the frozen clock of the tick; the well reads in
`FillWell.check` and `FillLargeTank.check` go through
`Well.levelAt` (their in-place refresh of `last_update` does not
change any later read at the same instant, `Well.levelAt_update_level`). -/
def stateCheck (s : StateName) (c : Context) (now : ℤ) : StateName :=
  match s with
  | .FillWell =>
    if c.well.levelAt now = 100 then .FillLargeTank else .FillWell
  | .FillLargeTank =>
    if c.large = .full then .SettleLargeTank
    else if c.well.levelAt now = 0 then .FillWell
    else .FillLargeTank
  | .SettleLargeTank =>
    if c.large ≠ .full then .FillLargeTank
    else if c.same_state_since now > c.settle_time then .FillSmallTank
    else .SettleLargeTank
  | .FillSmallTank =>
    if c.large = .empty then .FillLargeTank
    else if c.small = .full then .SmallTankInUse
    else .FillSmallTank
  | .SmallTankInUse =>
    if c.large = .empty then .FillLargeTank
    else if c.small = .empty then .FillSmallTank
    else .SmallTankInUse

/-- Fuel needed by `Context.check` below: the machine settles in at
most four transitions (`Context.check_isFixpoint`), so five loop
iterations always suffice. -/
def checkFuel : ℕ := 6

/-- Mirror of the `while` loop of `Context.check`, with fuel: as long
as the check of the current state returns a different state, adopt it
and stamp `state_activated_at` with the current time. -/
def Context.checkN : ℕ → Context → ℤ → Context
  | 0, c, _ => c
  | fuel + 1, c, now =>
    let s' := stateCheck c.current_state c now
    if s' = c.current_state then c
    else Context.checkN fuel
      { c with current_state := s', state_activated_at := now } now

/-- Mirror of `Context.check` (the fixed-point re-evaluation loop). -/
def Context.check (c : Context) (now : ℤ) : Context :=
  Context.checkN checkFuel c now

/-- `well_to_large_tank_pump.activate()`: flag on, listener notified. -/
def Context.activateWL (c : Context) (now : ℤ) : Context :=
  { c with pumpWL := true, well := c.well.pump_activated now }

/-- `well_to_large_tank_pump.deactivate()`: flag off, listener notified. -/
def Context.deactivateWL (c : Context) (now : ℤ) : Context :=
  { c with pumpWL := false, well := c.well.pump_deactivated now }

/-- `lower_to_small_tank_pump.activate()` (this pump has no listeners). -/
def Context.activateLS (c : Context) : Context :=
  { c with pumpLS := true }

/-- `lower_to_small_tank_pump.deactivate()` (this pump has no listeners). -/
def Context.deactivateLS (c : Context) : Context :=
  { c with pumpLS := false }

/-- Mirror of the five `State.action` static methods (the body of
`Context.action`), in the literal order of the pump calls. -/
def Context.action (c : Context) (now : ℤ) : Context :=
  match c.current_state with
  | .FillWell => (c.deactivateWL now).deactivateLS
  | .FillLargeTank => (c.activateWL now).deactivateLS
  | .SettleLargeTank => (c.deactivateWL now).deactivateLS
  | .FillSmallTank => (c.deactivateWL now).activateLS
  | .SmallTankInUse => (c.deactivateWL now).deactivateLS

/-- Mirror of `Context.measures()` at time `now`. -/
def Context.measures (c : Context) (now : ℤ) : Measures :=
  { time := now, well_level := c.well.levelAt now,
    large_tank_level := c.large, small_tank_level := c.small,
    well_to_large_tank_pump_active := c.pumpWL,
    lower_to_small_tank_pump_active := c.pumpLS,
    current_state := c.current_state,
    state_activated_at := c.state_activated_at }

/-- Mirror of `Context.from_settings_and_measures` at time `now`.
`largeR` and `smallR` are the hardware readings of the two freshly
constructed `GPIOTank`s; the two `GPIOPump`s start inactive.  `none`
models the assertion failure inside `Well.__init__`. -/
def Context.from_settings_and_measures (s : Settings) (m : Measures)
    (largeR smallR : TankLevel) (now : ℤ) : Option Context :=
  (Well.init s.fill_period s.empty_period m.well_level m.time now).map fun w =>
    { well := w, large := largeR, small := smallR,
      pumpWL := false, pumpLS := false, settle_time := s.settle_time,
      current_state := m.current_state,
      state_activated_at := m.state_activated_at }

/-! ### Controller (`class Controller`) -/

/-- The distinct failure exits of `Controller.load`. -/
inductive LoadError where
  | settingsMissing
  | settingsCorrupt
  | measuresCorrupt
  | historyCorrupt
  | invariant
deriving DecidableEq, Repr

/-- Mirror of `Controller.load`.  A `none` file argument models a
missing file; `some j` models a present file whose text parses to the
document `j`.  No exception is caught: a present file whose
deserialization fails aborts the load. -/
def Controller.load (settingsF measuresF historyF : Option Json)
    (largeR smallR : TankLevel) (now : ℤ) :
    Except LoadError (Context × History) :=
  match settingsF with
  | none => .error .settingsMissing
  | some sj =>
    match Settings.deserialize sj with
    | none => .error .settingsCorrupt
    | some st =>
      match (match measuresF with
             | some mj =>
               (match Measures.deserialize mj with
                | none => Except.error LoadError.measuresCorrupt
                | some m => Except.ok m)
             | none => Except.ok (Measures.initial now)) with
      | .error e => .error e
      | .ok m =>
        match (match historyF with
               | some hj =>
                 (match History.deserialize hj with
                  | none => Except.error LoadError.historyCorrupt
                  | some h => Except.ok h)
               | none => Except.ok (History.mk [])) with
        | .error e => .error e
        | .ok hist =>
          match Context.from_settings_and_measures st m largeR smallR now with
          | none => .error .invariant
          | some ctx => .ok (ctx, hist)

/-- Core of `Controller.run` at one tick with frozen clock `now`
(lines 519-520 of the source: `self.context.check()` then
`self.context.action()`).  The second component records which states
had their `action` executed during the tick, in order. -/
def Controller.runCore (c : Context) (now : ℤ) : Context × List StateName :=
  let c1 := Context.check c now
  (c1.action now, [c1.current_state])

/-! ### Finite abstraction of the fixed-point loop

Within one tick the clock and the sensor readings are fixed, so each
`stateCheck` call depends only on: whether the well reads 100, whether
it reads 0, the two tank levels, and whether the time in state exceeds
the settle time.  After the first transition the entry timestamp is
`now`, so the last condition becomes `0 > settle_time` for the rest of
the loop.  This makes the loop a function of finitely many observations
and lets the fixed-point facts be established by `decide`. -/

/-- `stateCheck` as a function of the five abstract observations. -/
def stepB (w100 w0 : Bool) (L S : TankLevel) (egt : Bool) :
    StateName → StateName
  | .FillWell => if w100 then .FillLargeTank else .FillWell
  | .FillLargeTank =>
    if L = .full then .SettleLargeTank
    else if w0 then .FillWell else .FillLargeTank
  | .SettleLargeTank =>
    if L ≠ .full then .FillLargeTank
    else if egt then .FillSmallTank else .SettleLargeTank
  | .FillSmallTank =>
    if L = .empty then .FillLargeTank
    else if S = .full then .SmallTankInUse else .FillSmallTank
  | .SmallTankInUse =>
    if L = .empty then .FillLargeTank
    else if S = .empty then .FillSmallTank else .SmallTankInUse

/-- `Context.checkN` as a function of the abstract observations; `e`
is the elapsed-exceeds-settle flag of the current state, `er` the one
every freshly entered state sees. -/
def loopB (w100 w0 : Bool) (L S : TankLevel) (er : Bool) :
    ℕ → StateName → Bool → StateName
  | 0, s, _ => s
  | fuel + 1, s, e =>
    let s' := stepB w100 w0 L S e s
    if s' = s then s else loopB w100 w0 L S er fuel s' er

/-- A well cannot read both 100 and 0. -/
theorem well_not_both (w : Well) (now : ℤ) :
    (decide (w.levelAt now = 100) && decide (w.levelAt now = 0)) = false := by
  by_cases h1 : w.levelAt now = 100 <;> by_cases h0 : w.levelAt now = 0 <;>
    simp_all

/-- Bridge from `stateCheck` to its finite abstraction. -/
theorem stateCheck_eq_stepB (s : StateName) (c : Context) (now : ℤ) :
    stateCheck s c now =
      stepB (decide (c.well.levelAt now = 100)) (decide (c.well.levelAt now = 0))
        c.large c.small
        (decide (c.same_state_since now > c.settle_time)) s := by
  cases s <;> simp [stateCheck, stepB]

/-- One unfolding of `Context.checkN`. -/
theorem Context.checkN_succ (f : ℕ) (c : Context) (now : ℤ) :
    Context.checkN (f + 1) c now =
      if stateCheck c.current_state c now = c.current_state then c
      else Context.checkN f
        { c with current_state := stateCheck c.current_state c now,
                 state_activated_at := now } now := rfl

/-- Bridge from the concrete loop to its finite abstraction. -/
theorem checkN_state_eq_loopB (f : ℕ) (c : Context) (now : ℤ) :
    (Context.checkN f c now).current_state =
      loopB (decide (c.well.levelAt now = 100)) (decide (c.well.levelAt now = 0))
        c.large c.small (decide ((0 : ℤ) > c.settle_time)) f c.current_state
        (decide (c.same_state_since now > c.settle_time)) := by
  induction f generalizing c with
  | zero => rfl
  | succ f ih =>
    rw [Context.checkN_succ, loopB]
    simp only [stateCheck_eq_stepB]
    by_cases hs : stepB (decide (c.well.levelAt now = 100))
        (decide (c.well.levelAt now = 0)) c.large c.small
        (decide (c.same_state_since now > c.settle_time)) c.current_state
        = c.current_state
    · simp [hs]
    · simp only [if_neg hs]
      rw [ih]
      simp [Context.same_state_since]

/-- `Context.checkN` touches only `current_state` and
`state_activated_at`. -/
theorem checkN_fields (f : ℕ) (c : Context) (now : ℤ) :
    (Context.checkN f c now).well = c.well ∧
    (Context.checkN f c now).large = c.large ∧
    (Context.checkN f c now).small = c.small ∧
    (Context.checkN f c now).pumpWL = c.pumpWL ∧
    (Context.checkN f c now).pumpLS = c.pumpLS ∧
    (Context.checkN f c now).settle_time = c.settle_time := by
  induction f generalizing c with
  | zero => exact ⟨rfl, rfl, rfl, rfl, rfl, rfl⟩
  | succ f ih =>
    rw [Context.checkN_succ]
    by_cases hs : stateCheck c.current_state c now = c.current_state
    · simp [hs]
    · simpa [hs] using
        ih { c with current_state := stateCheck c.current_state c now,
                    state_activated_at := now }

/-- Either the loop never transitioned, or the final entry timestamp
is the tick's clock. -/
theorem checkN_self_or_now (f : ℕ) (c : Context) (now : ℤ) :
    Context.checkN f c now = c ∨
    (Context.checkN f c now).state_activated_at = now := by
  induction f generalizing c with
  | zero => exact Or.inl rfl
  | succ f ih =>
    rw [Context.checkN_succ]
    by_cases hs : stateCheck c.current_state c now = c.current_state
    · simp [hs]
    · simp only [if_neg hs]
      rcases ih { c with current_state := stateCheck c.current_state c now,
                         state_activated_at := now } with h | h
      · exact Or.inr (by rw [h])
      · exact Or.inr h

/-- The abstract loop with fuel 6 always reaches a fixed point of the
abstract check (checked exhaustively over the finite observation
space; the side condition rules out a well reading both 100 and 0). -/
theorem loopB_fix : ∀ (w100 w0 : Bool) (L S : TankLevel) (er e : Bool)
    (s : StateName), (w100 && w0) = false →
    stepB w100 w0 L S (if loopB w100 w0 L S er 6 s e = s then e else er)
      (loopB w100 w0 L S er 6 s e) = loopB w100 w0 L S er 6 s e := by
  decide

/-- If the abstract loop with fuel 6 ends in its starting state, the
very first check already returned the starting state: the machine can
never leave a state and come back to it within one tick. -/
theorem loopB_stay : ∀ (w100 w0 : Bool) (L S : TankLevel) (er e : Bool)
    (s : StateName), (w100 && w0) = false →
    loopB w100 w0 L S er 6 s e = s → stepB w100 w0 L S e s = s := by
  decide

theorem Context.check_eq_checkN (c : Context) (now : ℤ) :
    Context.check c now = Context.checkN 6 c now := rfl

/-- Extensionality of `Context` by fields. -/
theorem Context.ext8 (x y : Context)
    (h1 : x.well = y.well) (h2 : x.large = y.large) (h3 : x.small = y.small)
    (h4 : x.pumpWL = y.pumpWL) (h5 : x.pumpLS = y.pumpLS)
    (h6 : x.settle_time = y.settle_time)
    (h7 : x.current_state = y.current_state)
    (h8 : x.state_activated_at = y.state_activated_at) : x = y := by
  cases x; cases y; simp_all

/-- If the fixed-point loop ends in the state it started from, it never
left it, and the whole context is untouched. -/
theorem Context.check_self_of_state_eq (c : Context) (now : ℤ)
    (h : (Context.check c now).current_state = c.current_state) :
    Context.check c now = c := by
  rw [Context.check_eq_checkN] at h ⊢
  rw [checkN_state_eq_loopB] at h
  have hstay := loopB_stay _ _ _ _ _ _ _ (well_not_both c.well now) h
  have hsc : stateCheck c.current_state c now = c.current_state := by
    rw [stateCheck_eq_stepB]; exact hstay
  rw [show (6 : ℕ) = 5 + 1 from rfl, Context.checkN_succ, if_pos hsc]

/-- The state `Context.check` settles on is a genuine fixed point: one
more evaluation of the settled state's check returns it unchanged. -/
theorem Context.check_isFixpoint (c : Context) (now : ℤ) :
    stateCheck (Context.check c now).current_state (Context.check c now) now
      = (Context.check c now).current_state := by
  obtain ⟨hw, hl, hs, -, -, hset⟩ := checkN_fields 6 c now
  by_cases hst : (Context.check c now).current_state = c.current_state
  · rw [Context.check_self_of_state_eq c now hst]
    rw [stateCheck_eq_stepB]
    have h' := hst
    rw [Context.check_eq_checkN, checkN_state_eq_loopB] at h'
    exact loopB_stay _ _ _ _ _ _ _ (well_not_both c.well now) h'
  · have hnow : (Context.checkN 6 c now).state_activated_at = now := by
      rcases checkN_self_or_now 6 c now with h | h
      · exact absurd (congrArg Context.current_state h)
          (by rw [← Context.check_eq_checkN]; exact hst)
      · exact h
    have hne : loopB (decide (c.well.levelAt now = 100))
        (decide (c.well.levelAt now = 0)) c.large c.small
        (decide ((0 : ℤ) > c.settle_time)) 6 c.current_state
        (decide (c.same_state_since now > c.settle_time)) ≠ c.current_state := by
      rw [← checkN_state_eq_loopB, ← Context.check_eq_checkN]
      exact hst
    have hfix := loopB_fix (decide (c.well.levelAt now = 100))
        (decide (c.well.levelAt now = 0)) c.large c.small
        (decide ((0 : ℤ) > c.settle_time))
        (decide (c.same_state_since now > c.settle_time)) c.current_state
        (well_not_both c.well now)
    rw [if_neg hne] at hfix
    rw [stateCheck_eq_stepB, Context.check_eq_checkN, hw, hl, hs, hset]
    have helapsed : (Context.checkN 6 c now).same_state_since now = 0 := by
      simp [Context.same_state_since, hnow]
    rw [helapsed]
    rw [checkN_state_eq_loopB]
    exact hfix

/-- Full characterization of one fixed-point evaluation: the context is
unchanged when the settled state equals the starting one, and otherwise
only the state and its entry timestamp (set to the tick's clock) change. -/
theorem Context.check_characterization (c : Context) (now : ℤ) :
    Context.check c now =
      if (Context.check c now).current_state = c.current_state then c
      else { c with current_state := (Context.check c now).current_state,
                    state_activated_at := now } := by
  by_cases hst : (Context.check c now).current_state = c.current_state
  · rw [if_pos hst]
    exact Context.check_self_of_state_eq c now hst
  · rw [if_neg hst]
    obtain ⟨hw, hl, hs, h4, h5, hset⟩ := checkN_fields 6 c now
    have hnow : (Context.checkN 6 c now).state_activated_at = now := by
      rcases checkN_self_or_now 6 c now with h | h
      · exact absurd (congrArg Context.current_state h)
          (by rw [← Context.check_eq_checkN]; exact hst)
      · exact h
    rw [Context.check_eq_checkN] at hst ⊢
    exact Context.ext8 _ _ hw hl hs h4 h5 hset rfl hnow

/-! ### History helper lemmas -/

/-- Inserting under a key not yet present appends. -/
theorem dictInsert_fresh (l : List (ℤ × Measures)) (k : ℤ) (v : Measures)
    (hf : k ∉ l.map Prod.fst) : dictInsert l k v = l ++ [(k, v)] := by
  induction l with
  | nil => rfl
  | cons e rest ih =>
    simp only [List.map_cons, List.mem_cons] at hf
    push_neg at hf
    obtain ⟨h1, h2⟩ := hf
    cases e with
    | mk k' v' =>
      rw [dictInsert, if_neg (fun h => h1 h.symm), ih h2]
      simp

theorem History.length_ne_zero_of_lastM (h : History) (lm : Measures)
    (hl : h.lastM = some lm) : h.measures.length ≠ 0 := by
  intro hlen
  have hnil : h.measures = [] := List.length_eq_zero.mp hlen
  rw [History.lastM, hnil] at hl
  simp at hl

/-! ### Concrete sample values used by witnesses and counterexamples -/

/-- A plausible settings value (one-hour fill, two-hour empty,
ten-minute settle, integer pins). -/
def sampleSettings : Settings :=
  { fill_period := 3600000000, empty_period := 7200000000,
    settle_time := 600000000,
    large_tank_low_floater_pin := .int 17, large_tank_high_floater_pin := .int 27,
    small_tank_low_floater_pin := .int 22, small_tank_high_floater_pin := .int 23,
    well_to_large_tank_pump_pin := .int 24, lower_to_small_tank_pump_pin := .int 25 }

/-- A parsable settings document. -/
def sampleSettingsJson : Json := sampleSettings.serialize

/-- A parsable measures document. -/
def sampleMeasuresJson : Json := (Measures.initial 0).serialize

/-- Snapshot captured at time 5. -/
def mA : Measures := Measures.initial 5

/-- Snapshot captured at time 7, differing from `mA` in `well_level`. -/
def mB : Measures := { Measures.initial 7 with well_level := 1 }

/-- Snapshot captured at time 5 again, differing from both `mA` and
`mB` in `well_level`. -/
def mC : Measures := { Measures.initial 5 with well_level := 2 }

/-- Snapshot equal to `mB` except for its capture time. -/
def mDup : Measures :=
  { Measures.initial 9 with
    well_level := 1,
    state_activated_at := 7 }

/-- Snapshot with a fresh capture time differing from `mB` in content. -/
def mNew : Measures := { Measures.initial 11 with well_level := 3 }

/-- A two-entry history, keys 5 and 7. -/
def histAB : History := History.mk [(5, mA), (7, mB)]

/-- A pump already active whose well listener flag is set. -/
def pOn : PumpW :=
  { active := true,
    well := { _level := 1/2, fill_period := 3600000000,
              empty_period := 7200000000, last_update := 0, pump_active := true } }

/-- A pump already inactive whose well listener flag is clear. -/
def pOff : PumpW :=
  { active := false,
    well := { _level := 1/2, fill_period := 3600000000,
              empty_period := 7200000000, last_update := 0, pump_active := false } }

/-- A quiet well. -/
def wQ : Well :=
  { _level := 0, fill_period := 3600000000, empty_period := 7200000000,
    last_update := 0, pump_active := false }

/-- A context dwelling in `SettleLargeTank` with a full large tank
since time 0, settle time ten minutes. -/
def ctxSettle : Context :=
  { well := wQ, large := .full, small := .empty, pumpWL := false,
    pumpLS := false, settle_time := 600000000,
    current_state := .SettleLargeTank, state_activated_at := 0 }

/-- A persisted snapshot taken at time 100, well at 50 percent, with
the well-draining pump recorded as active. -/
def mRestart : Measures :=
  { Measures.initial 100 with
    well_level := 50,
    well_to_large_tank_pump_active := true,
    current_state := .FillLargeTank }

/-! ### The claims -/

/-- C1: one controller tick (`Controller.run` lines 519-520) first
re-evaluates the state machine's check until it returns the current
state — the settled state is a genuine fixed point of `stateCheck` —
and only then applies the action of the settled state, exactly once:
the list of states whose `action` ran during the tick is exactly the
one-element list holding the settled state, so no intermediate state's
action is ever applied. -/
theorem c1_tick_settles_before_single_action (c : Context) (now : ℤ) :
    Controller.runCore c now
      = ((Context.check c now).action now, [(Context.check c now).current_state]) ∧
    stateCheck (Context.check c now).current_state (Context.check c now) now
      = (Context.check c now).current_state :=
  ⟨rfl, Context.check_isFixpoint c now⟩

/-- C9: across one fixed-point evaluation, the entry timestamp is set
to the tick's clock exactly when the settled state differs from the
starting state; if the machine settles back on its starting state the
whole context — entry timestamp included — is unchanged. -/
theorem c9_entry_timestamp_iff_change (c : Context) (now : ℤ) :
    Context.check c now =
      if (Context.check c now).current_state = c.current_state then c
      else { c with current_state := (Context.check c now).current_state,
                    state_activated_at := now } :=
  Context.check_characterization c now

/-- C6: in `SettleLargeTank` with the large (lower) tank still FULL,
the machine stays exactly while `now - state_activated_at` is at most
the settle time and moves to `FillSmallTank` exactly when it strictly
exceeds it. -/
theorem c6_settle_strictly_exceeds (c : Context) (now : ℤ)
    (h : c.large = TankLevel.full) :
    (stateCheck .SettleLargeTank c now = .SettleLargeTank ↔
      now - c.state_activated_at ≤ c.settle_time) ∧
    (stateCheck .SettleLargeTank c now = .FillSmallTank ↔
      now - c.state_activated_at > c.settle_time) := by
  by_cases hgt : c.same_state_since now > c.settle_time
  · simp_all [stateCheck, Context.same_state_since]
    omega
  · simp_all [stateCheck, Context.same_state_since]

/-- C6 witness: with a ten-minute settle time and entry at time 0, the
machine stays at exactly ten minutes and moves strictly after. -/
theorem c6_witness :
    stateCheck .SettleLargeTank ctxSettle 600000000 = .SettleLargeTank ∧
    stateCheck .SettleLargeTank ctxSettle 600000001 = .FillSmallTank :=
  ⟨(c6_settle_strictly_exceeds ctxSettle 600000000 rfl).1.mpr (by decide),
   (c6_settle_strictly_exceeds ctxSettle 600000001 rfl).2.mpr (by decide)⟩

/-- The level after an update stays in `[0, 1]`. -/
theorem Well.update_level_mem (w : Well) (now : ℤ) :
    0 ≤ (w.update_level now)._level ∧ (w.update_level now)._level ≤ 1 :=
  clamp01_mem _

/-- The public percent level always lies in `[0, 100]`. -/
theorem Well.levelAt_mem (w : Well) (now : ℤ) :
    0 ≤ w.levelAt now ∧ w.levelAt now ≤ 100 := by
  obtain ⟨h0, h1⟩ := Well.update_level_mem w now
  have hq0 : (0 : ℚ) ≤ 100 * (w.update_level now)._level := by nlinarith
  have hq1 : 100 * (w.update_level now)._level ≤ 100 := by nlinarith
  rw [Well.levelAt, ratTrunc, if_pos hq0]
  constructor
  · exact Int.floor_nonneg.mpr hq0
  · have h2 : (⌊100 * (w.update_level now)._level⌋ : ℚ) ≤ 100 :=
      le_trans (Int.floor_le _) hq1
    exact_mod_cast h2

/-- C7: recomputing the level adds `elapsed / fill_period` with the
draining pump off and subtracts `elapsed / empty_period` with it on,
then clamps to `[0, 1]`; the percent level is the truncation toward
zero of 100 times the fraction and always lies in `[0, 100]`; reading
twice with no elapsed time yields the same value; and a well
initialized at level 0 with a one-hour fill period reads 50 after 30
minutes. -/
theorem c7_well_level_semantics (w : Well) (now : ℤ) :
    ((w.update_level now)._level
      = clamp01 (if w.pump_active
          then w._level - ((now - w.last_update : ℤ) : ℚ) / ((w.empty_period : ℤ) : ℚ)
          else w._level + ((now - w.last_update : ℤ) : ℚ) / ((w.fill_period : ℤ) : ℚ))) ∧
    (w.levelAt now = ratTrunc (100 * (w.update_level now)._level)) ∧
    (0 ≤ w.levelAt now ∧ w.levelAt now ≤ 100) ∧
    ((w.update_level now).levelAt now = w.levelAt now) ∧
    ((Well.init 3600000000 7200000000 0 0 0).map (fun w0 => w0.levelAt 1800000000)
      = some 50) := by
  refine ⟨rfl, rfl, Well.levelAt_mem w now, Well.levelAt_update_level w now, ?_⟩
  norm_num [Well.init, Well.update_level, Well.levelAt, clamp01, ratTrunc]

/-- C2 counterexample: calling `activate` on a pump that is already
active (its well listener flag also set) still invokes the listener
callback — the list of notifications delivered is not empty, contrary
to the claim that no listener is notified. -/
theorem c2_counterexample :
    ¬((PumpW.activate pOn 0).2 = []) := by
  simp [PumpW.activate]

/-- C2 amended: a redundant `activate` (pump already active, well
listener flag set) or `deactivate` (pump inactive, flag clear) changes
no observable state — the pump including its listener is returned
unchanged — but the pump still invokes its listener callbacks
unconditionally; it is the `Well` listener that ignores the redundant
notification. -/
theorem c2_redundant_pump_calls (p q : PumpW) (now : ℤ)
    (hp : p.active = true) (hpw : p.well.pump_active = true)
    (hq : q.active = false) (hqw : q.well.pump_active = false) :
    (p.activate now).1 = p ∧ (p.activate now).2 = [PumpEvent.activated] ∧
    (q.deactivate now).1 = q ∧ (q.deactivate now).2 = [PumpEvent.deactivated] := by
  refine ⟨?_, rfl, ?_, rfl⟩
  · cases p with
    | mk a w => simp_all [PumpW.activate, Well.pump_activated]
  · cases q with
    | mk a w => simp_all [PumpW.deactivate, Well.pump_deactivated]

/-- C2 witness: the amended statement at concrete pumps. -/
theorem c2_witness :
    (PumpW.activate pOn 5).1 = pOn ∧
    (PumpW.activate pOn 5).2 = [PumpEvent.activated] ∧
    (PumpW.deactivate pOff 5).1 = pOff ∧
    (PumpW.deactivate pOff 5).2 = [PumpEvent.deactivated] :=
  c2_redundant_pump_calls pOn pOff 5 rfl rfl rfl rfl

/-- C8: serialization is a lossless round-trip: deserializing the
serialized form of any settings value returns it exactly, and likewise
for any snapshot — in particular the round-tripped snapshot is equal
to the original under the dataclass equality that ignores the capture
timestamp. -/
theorem c8_serialization_roundtrip (s : Settings) (m : Measures) :
    Settings.deserialize (Settings.serialize s) = some s ∧
    Measures.deserialize (Measures.serialize m) = some m ∧
    (Measures.deserialize (Measures.serialize m)).map
        (fun m2 => Measures.pyEq m2 m) = some true := by
  refine ⟨Settings.roundtrip_settings s, Measures.roundtrip_measures m, ?_⟩
  rw [Measures.roundtrip_measures]
  simp [Measures.pyEq]

/-- C10: a controller reconstructed from a persisted snapshot always
creates the well with its draining flag off and folds the entire
elapsed time since the snapshot's timestamp into the level as filling
(`+ elapsed / fill_period`, clamped), and is entirely independent of
the snapshot's recorded well-pump flag. -/
theorem c10_restart_ignores_pump_flag (s : Settings) (m : Measures)
    (largeR smallR : TankLevel) (now : ℤ)
    (h0 : 0 ≤ m.well_level) (h1 : m.well_level ≤ 100) :
    Context.from_settings_and_measures s m largeR smallR now = some
      { well := ⟨clamp01 ((m.well_level : ℚ) / 100
            + ((now - m.time : ℤ) : ℚ) / ((s.fill_period : ℤ) : ℚ)),
            s.fill_period, s.empty_period, now, false⟩,
        large := largeR, small := smallR, pumpWL := false, pumpLS := false,
        settle_time := s.settle_time, current_state := m.current_state,
        state_activated_at := m.state_activated_at } ∧
    Context.from_settings_and_measures s
        { m with well_to_large_tank_pump_active := true } largeR smallR now
      = Context.from_settings_and_measures s
        { m with well_to_large_tank_pump_active := false } largeR smallR now := by
  constructor
  · simp [Context.from_settings_and_measures, Well.init, h0, h1,
      Well.update_level]
  · rfl

/-- C10 witness: restarting from a snapshot taken at time 100 with the
well at 50 percent and the pump recorded as ACTIVE, 30 minutes later
with a one-hour fill period, yields a well with the pump flag off and
a full fractional level. -/
theorem c10_witness :
    (Context.from_settings_and_measures sampleSettings mRestart
        TankLevel.full TankLevel.empty 1800000100).map
      (fun ctx => (ctx.well.pump_active, ctx.well._level)) = some (false, 1) := by
  have h := (c10_restart_ignores_pump_flag sampleSettings mRestart
    TankLevel.full TankLevel.empty 1800000100 (by decide) (by decide)).1
  rw [h]
  norm_num [mRestart, Measures.initial, sampleSettings, clamp01]

/-- C3 counterexample: with a valid settings file and a valid measures
file, a history file that is present but unparsable makes the load
fail with an error — it does not fall back to an empty history as the
claim states. -/
theorem c3_counterexample :
    Controller.load (some sampleSettingsJson) (some sampleMeasuresJson)
        (some (Json.int 0)) TankLevel.empty TankLevel.empty 0
      = .error .historyCorrupt := by
  simp [Controller.load, sampleSettingsJson, sampleMeasuresJson,
    Settings.roundtrip_settings, Measures.roundtrip_measures,
    History.deserialize]

/-- C3 amended: at startup only a MISSING measures file falls back to
the synthesized initial snapshot and only a MISSING history file falls
back to an empty history; a present-but-unparsable settings, measures
or history file is fatal (the exception propagates out of `load`), as
is a missing settings file. -/
theorem c3_load_fallback_only_for_missing_files
    (sj mj hj : Json) (largeR smallR : TankLevel) (now : ℤ) :
    (Controller.load none (some mj) (some hj) largeR smallR now
      = .error .settingsMissing) ∧
    (Settings.deserialize sj = none →
      Controller.load (some sj) (some mj) (some hj) largeR smallR now
        = .error .settingsCorrupt) ∧
    (∀ st, Settings.deserialize sj = some st →
      Measures.deserialize mj = none →
      Controller.load (some sj) (some mj) (some hj) largeR smallR now
        = .error .measuresCorrupt) ∧
    (∀ st m, Settings.deserialize sj = some st →
      Measures.deserialize mj = some m →
      History.deserialize hj = none →
      Controller.load (some sj) (some mj) (some hj) largeR smallR now
        = .error .historyCorrupt) ∧
    (∀ st, Settings.deserialize sj = some st →
      ∀ ctx, Context.from_settings_and_measures st (Measures.initial now)
          largeR smallR now = some ctx →
      Controller.load (some sj) none none largeR smallR now
        = .ok (ctx, History.mk [])) := by
  refine ⟨rfl, ?_, ?_, ?_, ?_⟩
  · intro hs
    simp [Controller.load, hs]
  · intro st hs hm
    simp [Controller.load, hs, hm]
  · intro st m hs hm hh
    simp [Controller.load, hs, hm, hh]
  · intro st hs ctx hctx
    simp [Controller.load, hs, hctx]

/-- C3 witness: the amended statement at concrete files — valid
settings, an unparsable measures document. -/
theorem c3_witness :
    Controller.load (some sampleSettingsJson) (some (Json.int 0))
        (some (Json.int 0)) TankLevel.empty TankLevel.empty 0
      = .error .measuresCorrupt :=
  (c3_load_fallback_only_for_missing_files sampleSettingsJson (Json.int 0)
      (Json.int 0) TankLevel.empty TankLevel.empty 0).2.2.1
    sampleSettings (Settings.roundtrip_settings sampleSettings) rfl

/-- C4 counterexample: appending a snapshot that differs from the most
recent entry in `well_level` but whose capture timestamp equals an
older entry's key does NOT add a new entry — the history keeps length
two, the colliding older entry being replaced in place. -/
theorem c4_counterexample :
    Measures.pyEq mB mC = false ∧
    (histAB.add mC).measures.length = 2 := by
  constructor
  · decide
  · simp [History.add, histAB, History.lastM, mA, mB, mC, Measures.initial,
      Measures.pyEq, dictInsert, Measures.copy_eq]

/-- C4 amended: appending a snapshot equal (ignoring its timestamp) to
the most recently stored entry leaves the history unchanged; appending
a snapshot that differs in any other field appends exactly one new
entry PROVIDED its capture timestamp is not already a key of the
history (a colliding timestamp instead replaces the entry stored under
it).  Deduplication only consults the most recent entry, so a snapshot
equal to an older, non-adjacent entry is stored again — the second
part applies whenever the last-entry comparison fails, regardless of
older entries. -/
theorem c4_dedup_against_last_only (h : History) (m lm : Measures)
    (hlast : h.lastM = some lm) :
    (Measures.pyEq lm m = true → h.add m = h) ∧
    (Measures.pyEq lm m = false →
      m.time ∉ h.measures.map Prod.fst →
      (h.add m).measures = h.measures ++ [(m.time, m)]) := by
  constructor
  · intro heq
    rw [History.add, if_pos]
    exact ⟨History.length_ne_zero_of_lastM h lm hlast, by rw [hlast]; exact heq⟩
  · intro hne hf
    rw [History.add, if_neg]
    · simp [dictInsert_fresh _ _ _ hf, Measures.copy_eq]
    · rw [hlast]
      simp [hne]

/-- C4 witness: a timestamp-only duplicate of the last entry is
dropped; a genuinely different snapshot with a fresh timestamp is
appended. -/
theorem c4_witness :
    histAB.add mDup = histAB ∧
    (histAB.add mNew).measures = histAB.measures ++ [(11, mNew)] := by
  constructor
  · exact (c4_dedup_against_last_only histAB mDup mB (by decide)).1 (by decide)
  · exact (c4_dedup_against_last_only histAB mNew mB (by decide)).2
      (by decide) (by decide)

/-- C5 counterexample: an `add` whose snapshot differs from the last
entry but reuses the key 5 deletes the entry originally stored under
key 5 — the history is not append-only in that case. -/
theorem c5_counterexample :
    (5, mA) ∈ histAB.measures ∧ (5, mA) ∉ (histAB.add mC).measures := by
  constructor
  · decide
  · simp [History.add, histAB, History.lastM, mA, mB, mC, Measures.initial,
      Measures.pyEq, dictInsert, Measures.copy_eq]

/-- C5 amended: for every `add` whose snapshot timestamp is not
already a key of the history, the history is append-only: it is
either unchanged or extended by exactly one entry at the end, so every
previously stored entry remains present, in order, with its original
snapshot. -/
theorem c5_append_only_fresh_timestamps (h : History) (m : Measures)
    (hf : m.time ∉ h.measures.map Prod.fst) :
    (h.add m).measures = h.measures ∨
    (h.add m).measures = h.measures ++ [(m.time, m)] := by
  rw [History.add]
  by_cases hc : h.measures.length ≠ 0 ∧
      (match h.lastM with
       | some lm => Measures.pyEq lm m
       | none => false) = true
  · rw [if_pos hc]
    exact Or.inl rfl
  · rw [if_neg hc]
    right
    simp [dictInsert_fresh _ _ _ hf, Measures.copy_eq]

/-- C5 witness: the amended statement at a concrete history and a
fresh-timestamp snapshot. -/
theorem c5_witness :
    (histAB.add mNew).measures = histAB.measures ∨
    (histAB.add mNew).measures = histAB.measures ++ [(11, mNew)] :=
  c5_append_only_fresh_timestamps histAB mNew (by decide)
